import Mathlib

/-!
Shallow embedding of the `chalupy-mcp` scraper core (`src/scraper.ts`) and proofs
about it.  Pure computations (validation, URL construction, tag scanning,
truncation) are translated directly; the effectful pipeline (delays, fetches,
cache reads) is modelled by explicit state passing plus an event trace, with the
HTML page contents supplied as already-extracted selector text (the cheerio
selector layer itself performs no logic beyond text extraction and trimming).
JS numbers are modelled as `JSNum` (NaN / ±Infinity / a rational value); JS
strings as Lean `String` (code points instead of UTF-16 units; all characters
relevant to the claims are in the basic plane, where the two coincide).
-/

namespace Chalupy

deriving instance DecidableEq for Except

/-- Model of a JavaScript number: NaN, the two infinities, or a finite value. -/
inductive JSNum where
  | nan
  | posInf
  | negInf
  | val (q : ℚ)
deriving DecidableEq, Repr

/-- `Number.isFinite`. -/
def JSNum.isFinite : JSNum → Bool
  | .val _ => true
  | _ => false

/-- JS truthiness of a number: `0` and `NaN` are falsy, everything else truthy. -/
def JSNum.truthy : JSNum → Bool
  | .val q => decide (q ≠ 0)
  | .nan => false
  | .posInf => true
  | .negInf => true

/-- JS comparison `v < 0` (false for NaN). -/
def JSNum.ltZero : JSNum → Bool
  | .val q => decide (q < 0)
  | .negInf => true
  | _ => false

/-- JS comparison `v > 100` (false for NaN). -/
def JSNum.gt100 : JSNum → Bool
  | .val q => decide (100 < q)
  | .posInf => true
  | _ => false

/-- Error taxonomy.  The code throws plain `Error`s; the constructor records the
throw site's category (parameter validation, the URL safety gate, or the
network/fetch layer) together with the exact message built by the code. -/
inductive Err where
  | invalidParameter (msg : String)
  | invalidUrl (msg : String)
  | network (msg : String)
deriving DecidableEq, Repr

def ALLOWED_HOSTNAME : String := "www.e-chalupy.cz"

def BASE_URL : String := "https://www.e-chalupy.cz"

/-- Character class of `VALID_SLUG_PATTERN = /^[a-z0-9-]+$/`. -/
def isSlugChar (c : Char) : Bool :=
  ('a' ≤ c && c ≤ 'z') || ('0' ≤ c && c ≤ '9') || c == '-'

/-- `VALID_SLUG_PATTERN.test(slug)`: at least one character, all from the class. -/
def slugPatternOk (s : String) : Bool :=
  !s.data.isEmpty && s.data.all isSlugChar

/-- `validateSlug(slug, type)` from scraper.ts: pattern check first, then the
length bound (> 50 rejected). -/
def validateSlug (slug ty : String) : Except Err Unit :=
  if !slugPatternOk slug then
    .error (.invalidParameter ("Neplatný " ++ ty ++ ": " ++ slug))
  else if slug.length > 50 then
    .error (.invalidParameter (ty ++ " je příliš dlouhý"))
  else
    .ok ()

def isDigitChar (c : Char) : Bool := '0' ≤ c && c ≤ '9'

def digitVal (c : Char) : Nat := c.toNat - '0'.toNat

/-- Decompose a string of the exact shape `YYYY-MM-DD` (the regex
`/^\d{4}-\d{2}-\d{2}$/`) into its numeric year, month, day. -/
def dateFields (s : String) : Option (Nat × Nat × Nat) :=
  match s.data with
  | [y1, y2, y3, y4, h1, m1, m2, h2, d1, d2] =>
    if h1 == '-' && h2 == '-' &&
        [y1, y2, y3, y4, m1, m2, d1, d2].all isDigitChar then
      some (1000 * digitVal y1 + 100 * digitVal y2 + 10 * digitVal y3 + digitVal y4,
            10 * digitVal m1 + digitVal m2,
            10 * digitVal d1 + digitVal d2)
    else none
  | _ => none

/-- The regex test `/^\d{4}-\d{2}-\d{2}$/.test(date)`. -/
def datePatternOk (s : String) : Bool := (dateFields s).isSome

def isLeapYear (y : Nat) : Bool :=
  y % 4 == 0 && (y % 100 != 0 || y % 400 == 0)

def daysInMonth (y m : Nat) : Nat :=
  if m == 2 then (if isLeapYear y then 29 else 28)
  else if m == 4 || m == 6 || m == 9 || m == 11 then 30
  else 31

/-- A real (proleptic Gregorian) calendar date. -/
def isRealCalendarDate (y m d : Nat) : Bool :=
  1 ≤ m && m ≤ 12 && 1 ≤ d && d ≤ daysInMonth y m

/-- Modelled from the library: ECMAScript Date Time String Format parsing as
implemented by Node/V8.  For a string already matching `YYYY-MM-DD`,
`!isNaN(new Date(s).getTime())` holds iff the month is 1–12 and the day exists
in that month of that year (leap years included); out-of-range components make
the string a non-conforming instance of the format, which V8 rejects as an
Invalid Date. -/
def jsDateTimeValid (s : String) : Bool :=
  match dateFields s with
  | some (y, m, d) => isRealCalendarDate y m d
  | none => false

/-- `validateDate(date)` from scraper.ts: regex check, then the
`isNaN(new Date(date).getTime())` check. -/
def validateDate (date : String) : Except Err Unit :=
  if !datePatternOk date then
    .error (.invalidParameter
      ("Neplatný formát data: " ++ date ++ ". Použijte formát YYYY-MM-DD"))
  else if !jsDateTimeValid date then
    .error (.invalidParameter ("Neplatné datum: " ++ date))
  else
    .ok ()

/-- `validatePositiveNumber(value, name)` from scraper.ts. -/
def validatePositiveNumber (v : JSNum) (name : String) : Except Err Unit :=
  if !v.isFinite || v.ltZero then
    .error (.invalidParameter (name ++ " musí být kladné číslo"))
  else
    .ok ()

/-- The millisecond count computed by `randomDelay(min, max)` for a draw
`r = Math.random()` (a value in `[0, 1)`):
`Math.floor(r * (max - min + 1)) + min`. -/
def randomDelayMs (mn mx : Nat) (r : ℚ) : ℤ :=
  ⌊r * ((mx : ℚ) - (mn : ℚ) + 1)⌋ + mn

/-- Boolean list-prefix test. -/
def listPrefixB : List Char → List Char → Bool
  | [], _ => true
  | _ :: _, [] => false
  | a :: as, b :: bs => a == b && listPrefixB as bs

/-- Boolean contiguous-sublist test (`String.prototype.includes` on code points). -/
def listContainsB (needle : List Char) : List Char → Bool
  | [] => listPrefixB needle []
  | c :: rest => listPrefixB needle (c :: rest) || listContainsB needle rest

def strIncludes (hay needle : String) : Bool :=
  listContainsB needle.data hay.data

/-- ASCII lower-casing of one character (`String.prototype.toLowerCase` restricted
to ASCII; the claims never compare non-ASCII letters case-insensitively). -/
def asciiLower (c : Char) : Char :=
  if 'A' ≤ c && c ≤ 'Z' then Char.ofNat (c.toNat + 32) else c

def lowerStr (s : String) : String := ⟨s.data.map asciiLower⟩

/-- JS whitespace (`\s`), restricted to the ASCII whitespace characters. -/
def jsWhitespace (c : Char) : Bool :=
  c == ' ' || c == '\t' || c == '\n' || c == '\x0d' || c == '\x0b' || c == '\x0c'

/-- `String.prototype.trim`. -/
def jsTrim (s : String) : String :=
  ⟨((s.data.dropWhile jsWhitespace).reverse.dropWhile jsWhitespace).reverse⟩

/-! ### URL parsing (the `new URL` constructor) -/

/-- The two URL components inspected by `validateUrl`, as exposed by a parsed
WHATWG URL object: `protocol` (lower-cased scheme plus `":"`) and `hostname`
(lower-cased, port and userinfo stripped). -/
structure JSURL where
  protocol : String
  hostname : String
deriving DecidableEq, Repr

def isSchemeStartChar (c : Char) : Bool :=
  ('a' ≤ c && c ≤ 'z') || ('A' ≤ c && c ≤ 'Z')

def isSchemeChar (c : Char) : Bool :=
  isSchemeStartChar c || isDigitChar c || c == '+' || c == '-' || c == '.'

/-- Split a character list at the first `':'`, returning the parts before and
after it. -/
def splitAtColon : List Char → Option (List Char × List Char)
  | [] => none
  | c :: rest =>
    if c == ':' then some ([], rest)
    else
      match splitAtColon rest with
      | some (pre, post) => some (c :: pre, post)
      | none => none

/-- Schemes the WHATWG parser treats as special (they always carry a host). -/
def specialSchemes : List String := ["http", "https", "ws", "wss", "ftp", "file"]

/-- The authority component: characters up to the first path / query / fragment
delimiter. -/
def takeAuthority (l : List Char) : List Char :=
  l.takeWhile (fun c => !(c == '/' || c == '?' || c == '#' || c == '\\'))

/-- Hostname inside an authority: drop a userinfo part (up to the last `'@'`),
then drop a port (from the first `':'`). -/
def hostOfAuthority (auth : List Char) : List Char :=
  ((auth.reverse.takeWhile (fun c => c != '@')).reverse).takeWhile (fun c => c != ':')

/-- Modelled from the library: the WHATWG URL parser (`new URL(url)` with no
base), restricted to the fragment exercised here.  An absolute URL needs a
scheme (a letter followed by scheme characters) and a `':'`.  For the special
schemes any run of slashes after the colon is skipped and a non-empty authority
must follow, whose host is lower-cased; for other schemes a host exists only
after a literal `"//"`, and otherwise the URL has an opaque path and an empty
hostname.  Returns `none` exactly when the constructor would throw. -/
def parseURL (s : String) : Option JSURL :=
  match splitAtColon s.data with
  | none => none
  | some (schemeRaw, rest) =>
    if schemeRaw.isEmpty || !isSchemeStartChar (schemeRaw.headD 'a')
        || !schemeRaw.all isSchemeChar then
      none
    else
      let scheme := lowerStr ⟨schemeRaw⟩
      if specialSchemes.contains scheme then
        let rest1 := rest.dropWhile (fun c => c == '/' || c == '\\')
        let host := hostOfAuthority (takeAuthority rest1)
        if host.isEmpty then none
        else some { protocol := scheme ++ ":", hostname := lowerStr ⟨host⟩ }
      else
        if rest.take 2 == ['/', '/'] then
          some { protocol := scheme ++ ":",
                 hostname := lowerStr ⟨hostOfAuthority (takeAuthority (rest.drop 2))⟩ }
        else
          some { protocol := scheme ++ ":", hostname := "" }

/-- The checks of `validateUrl` applied to the outcome of `new URL(url)`: a
parse failure is rethrown as the invalid-URL error; then hostname equality
against the single allowed host; then exact `https:` protocol. -/
def validateUrlParsed : Option JSURL → Except Err JSURL
  | none => .error (.invalidUrl "Neplatná URL adresa")
  | some p =>
    if p.hostname != ALLOWED_HOSTNAME then
      .error (.invalidUrl ("URL musí být z domény " ++ ALLOWED_HOSTNAME))
    else if p.protocol != "https:" then
      .error (.invalidUrl "URL musí používat HTTPS protokol")
    else
      .ok p

/-- `validateUrl(url)` from scraper.ts. -/
def validateUrl (url : String) : Except Err JSURL :=
  validateUrlParsed (parseURL url)

/-! ### Fetch layer (`fetchWithRetry`) -/

/-- Observable effects of one operation, in order: a randomized delay with its
bounds in milliseconds, or an outbound HTTP request. -/
inductive Event where
  | delay (mn mx : Nat)
  | fetch (url : String)
deriving DecidableEq, Repr

def Event.isFetch : Event → Bool
  | .fetch _ => true
  | _ => false

/-- Outcome of one fetch attempt as seen by `fetchWithRetry`: an HTTP response
with a status code, an abort by the 30 s timeout, or any other fetch rejection
(DNS error, connection reset, ...) carrying its message. -/
inductive AttemptOutcome where
  | status (code : Nat)
  | timeout
  | netError (msg : String)
deriving DecidableEq, Repr

/-- `response.ok`: status in the range 200–299. -/
def statusOk (c : Nat) : Bool := 200 ≤ c && c < 300

inductive FetchResult where
  | success (attempt : Nat)
  | failure (msg : String)
deriving DecidableEq, Repr

def timeoutMsg : String := "Požadavek vypršel - server neodpověděl včas"

def httpErrMsg (c : Nat) : String := "HTTP error! status: " ++ toString c

/-- Events of attempt `i`: attempts after the first are preceded by the longer
jittered delay `randomDelay(1000, 3000)`. -/
def attemptEvents (url : String) (i : Nat) : List Event :=
  if i == 0 then [.fetch url] else [.delay 1000 3000, .fetch url]

/-- The retry loop of `fetchWithRetry`, at attempt index `i` with `k` further
attempts allowed after this one (`k = retries - i`).  Branch correspondence
with the source:
* an ok status returns the response;
* a non-ok status of exactly 500 with attempts remaining hits the explicit
  `continue`; every other non-ok status is thrown inside the `try`, caught by
  the loop's own `catch`, and — not being an `AbortError` — retried whenever
  `i !== retries`, so behaviourally every non-ok status retries while attempts
  remain and fails with `HTTP error! status: <code>` on the last attempt;
* an `AbortError` (timeout) is rethrown immediately as the timeout error,
  consuming no retry;
* any other rejection is retried unless this was the last attempt, which
  rethrows it. -/
def fetchLoop (url : String) (o : Nat → AttemptOutcome) : Nat → Nat → List Event × FetchResult
  | i, 0 =>
    (attemptEvents url i,
      match o i with
      | .status c => if statusOk c then .success i else .failure (httpErrMsg c)
      | .timeout => .failure timeoutMsg
      | .netError m => .failure m)
  | i, k + 1 =>
    match o i with
    | .status c =>
      if statusOk c then (attemptEvents url i, .success i)
      else
        let r := fetchLoop url o (i + 1) k
        (attemptEvents url i ++ r.1, r.2)
    | .timeout => (attemptEvents url i, .failure timeoutMsg)
    | .netError _ =>
      let r := fetchLoop url o (i + 1) k
      (attemptEvents url i ++ r.1, r.2)

/-- `fetchWithRetry(url, retries = 2)`: run the loop from attempt 0. -/
def fetchWithRetry (url : String) (o : Nat → AttemptOutcome) (retries : Nat := 2) :
    List Event × FetchResult :=
  fetchLoop url o 0 retries

/-! ### Cache -/

def CACHE_TTL_MS : ℤ := 60 * 60 * 1000

structure CacheEntry (T : Type) where
  data : List T
  timestamp : ℤ
deriving DecidableEq, Repr

/-- The single mutable slot of `class Cache<T>`. -/
structure CacheState (T : Type) where
  entry : Option (CacheEntry T)
deriving DecidableEq, Repr

/-- `Cache.get()` at clock reading `now`: absent slot yields nothing; an entry
strictly older than the TTL is evicted and yields nothing; otherwise the stored
data is returned and the slot is untouched. -/
def cacheGet {T : Type} (st : CacheState T) (now : ℤ) : Option (List T) × CacheState T :=
  match st.entry with
  | none => (none, st)
  | some e =>
    if now - e.timestamp > CACHE_TTL_MS then (none, ⟨none⟩)
    else (some e.data, st)

/-- `Cache.set(data)` at clock reading `now`. -/
def cacheSet {T : Type} (data : List T) (now : ℤ) : CacheState T :=
  ⟨some ⟨data, now⟩⟩

/-! ### Catalog operations (`listRegions`, `listFeatures`) -/

structure Region where
  slug : String
  name : String
  count : Nat
deriving DecidableEq, Repr

structure Feature where
  slug : String
  name : String
  count : Nat
deriving DecidableEq, Repr

def catalogUrl : String := BASE_URL ++ "/chaty-chalupy"

/-- `listRegions()` with the process state made explicit: the cache slot, the
clock reading `now`, the per-attempt fetch outcomes, and the records the
anchor-scanning extractor would produce from the fetched page (the extractor —
an allow-list filter plus de-duplication over anchor elements — is not itself
the subject of any claim, so the page is supplied post-extraction).  Returns
the result, the new cache state, and the event trace.  Note the source issues
its fetch directly on a cache miss, with no preceding `randomDelay`. -/
def listRegions (st : CacheState Region) (now : ℤ) (o : Nat → AttemptOutcome)
    (page : List Region) :
    Except Err (List Region) × CacheState Region × List Event :=
  match cacheGet st now with
  | (some cached, st1) => (.ok cached, st1, [])
  | (none, st1) =>
    let fr := fetchWithRetry catalogUrl o
    match fr.2 with
    | .success _ => (.ok page, cacheSet page now, fr.1)
    | .failure m =>
      (.error (.network ("Chyba při načítání regionů: " ++ m)), st1, fr.1)

/-- `listFeatures()`, same shape as `listRegions` over its own cache. -/
def listFeatures (st : CacheState Feature) (now : ℤ) (o : Nat → AttemptOutcome)
    (page : List Feature) :
    Except Err (List Feature) × CacheState Feature × List Event :=
  match cacheGet st now with
  | (some cached, st1) => (.ok cached, st1, [])
  | (none, st1) =>
    let fr := fetchWithRetry catalogUrl o
    match fr.2 with
    | .success _ => (.ok page, cacheSet page now, fr.1)
    | .failure m =>
      (.error (.network ("Chyba při načítání vlastností: " ++ m)), st1, fr.1)

/-! ### Search (`searchChalupy`) -/

/-- `SearchParams` from scraper.ts; `none` is an absent (`undefined`) field. -/
structure SearchParams where
  query : Option String := none
  region : Option String := none
  features : Option (List String) := none
  persons : Option JSNum := none
  dateFrom : Option String := none
  dateTo : Option String := none
  priceMin : Option JSNum := none
  priceMax : Option JSNum := none
  maxResults : Option JSNum := none
deriving DecidableEq, Repr

/-- JS truthiness of an optional string (`undefined` and `""` are falsy). -/
def strTruthy : Option String → Bool
  | some s => s != ""
  | none => false

/-- JS truthiness of an optional number (`undefined`, `0` and `NaN` are falsy). -/
def numTruthy : Option JSNum → Bool
  | some v => v.truthy
  | none => false

/-- `if (params.region) validateSlug(params.region, type)`. -/
def checkOptSlug : Option String → String → Except Err Unit
  | some s, ty => if s != "" then validateSlug s ty else .ok ()
  | none, _ => .ok ()

/-- The `for (const feature of params.features) validateSlug(feature, "feature")`
loop; the first failing slug throws. -/
def validateFeatureList : List String → Except Err Unit
  | [] => .ok ()
  | f :: rest => do
    validateSlug f "feature"
    validateFeatureList rest

def checkFeatures : Option (List String) → Except Err Unit
  | some fs => validateFeatureList fs
  | none => .ok ()

/-- `if (params.dateFrom) validateDate(params.dateFrom)`. -/
def checkOptDate : Option String → Except Err Unit
  | some d => if d != "" then validateDate d else .ok ()
  | none => .ok ()

/-- `if (params.x !== undefined) validatePositiveNumber(params.x, name)`. -/
def checkOptNum : Option JSNum → String → Except Err Unit
  | some v, name => validatePositiveNumber v name
  | none, _ => .ok ()

/-- The `maxResults` checks: non-negative finite, then the hard ceiling 100. -/
def checkMaxResults : Option JSNum → Except Err Unit
  | some v => do
    validatePositiveNumber v "maxResults"
    if v.gt100 then
      Except.error (.invalidParameter "maxResults nemůže být větší než 100")
    else
      Except.ok ()
  | none => .ok ()

/-- The validation prologue of `searchChalupy`, in source order. -/
def validateSearchParams (p : SearchParams) : Except Err Unit := do
  checkOptSlug p.region "region"
  checkFeatures p.features
  checkOptDate p.dateFrom
  checkOptDate p.dateTo
  checkOptNum p.persons "persons"
  checkOptNum p.priceMin "priceMin"
  checkOptNum p.priceMax "priceMax"
  checkMaxResults p.maxResults

def hexDigit (n : Nat) : Char :=
  if n < 10 then Char.ofNat ('0'.toNat + n) else Char.ofNat ('A'.toNat + n - 10)

def pctByte (b : Nat) : List Char := ['%', hexDigit (b / 16), hexDigit (b % 16)]

/-- UTF-8 bytes of one code point. -/
def utf8Bytes (c : Char) : List Nat :=
  let n := c.toNat
  if n < 0x80 then [n]
  else if n < 0x800 then [0xC0 + n / 64, 0x80 + n % 64]
  else if n < 0x10000 then [0xE0 + n / 4096, 0x80 + (n / 64) % 64, 0x80 + n % 64]
  else [0xF0 + n / 262144, 0x80 + (n / 4096) % 64, 0x80 + (n / 64) % 64, 0x80 + n % 64]

/-- Characters `encodeURIComponent` leaves unescaped. -/
def uriUnreserved (c : Char) : Bool :=
  ('A' ≤ c && c ≤ 'Z') || ('a' ≤ c && c ≤ 'z') || ('0' ≤ c && c ≤ '9') ||
  c == '-' || c == '_' || c == '.' || c == '!' || c == '~' || c == '*' ||
  c == '\'' || c == '(' || c == ')'

def encodeURIComponent (s : String) : String :=
  ⟨(s.data.map (fun c =>
      if uriUnreserved c then [c] else ((utf8Bytes c).map pctByte).flatten)).flatten⟩

/-- Rendering a JS number into a string (as done implicitly by
`encodeURIComponent(number)`).  Only integral finite values reach this point in
any claim; non-integral values are rendered via the rational's canonical form,
an abstraction of JS float formatting that no claim depends on. -/
def numToString : JSNum → String
  | .val q => if q.den == 1 then toString q.num else toString q
  | .nan => "NaN"
  | .posInf => "Infinity"
  | .negInf => "-Infinity"

/-- The `searchPath` construction: region slug as the path, the FIRST feature
slug appended; a feature-only search uses the first feature slug; otherwise the
generic catalog path. -/
def buildSearchPath (p : SearchParams) : String :=
  if strTruthy p.region then
    "/" ++ encodeURIComponent (p.region.getD "") ++
      (match p.features with
       | some (f :: _) => "/" ++ encodeURIComponent f
       | _ => "")
  else
    match p.features with
    | some (f :: _) => "/" ++ encodeURIComponent f
    | _ => "/chaty-chalupy"

/-- The `queryParams` array: each field contributes only when truthy, so a `0`
numeric value or empty string is omitted. -/
def buildQueryParams (p : SearchParams) : List String :=
  (if numTruthy p.persons then
    ["osoby=" ++ encodeURIComponent (numToString (p.persons.getD .nan))] else []) ++
  (if strTruthy p.dateFrom then
    ["od=" ++ encodeURIComponent (p.dateFrom.getD "")] else []) ++
  (if strTruthy p.dateTo then
    ["do=" ++ encodeURIComponent (p.dateTo.getD "")] else []) ++
  (if numTruthy p.priceMin then
    ["cenaMin=" ++ encodeURIComponent (numToString (p.priceMin.getD .nan))] else []) ++
  (if numTruthy p.priceMax then
    ["cenaMax=" ++ encodeURIComponent (numToString (p.priceMax.getD .nan))] else [])

def buildSearchUrl (p : SearchParams) : String :=
  let qp := buildQueryParams p
  BASE_URL ++ buildSearchPath p ++
    (if qp.isEmpty then "" else "?" ++ String.intercalate "&" qp)

/-- One `.item.c-property` row, as the trimmed text / attribute values the
selectors extract from it (`none` models a missing attribute). -/
structure RawItem where
  title : String
  price : String
  location : String
  location2 : String
  descText : String
  link : Option String
  imageSrc : Option String
  rating : String
deriving DecidableEq, Repr

structure PropertyListing where
  title : String
  price : String
  location : String
  description : String
  url : String
  imageUrl : Option String
  rating : Option String
deriving DecidableEq, Repr

/-- Absolutization of a scraped link (`link.startsWith("http") ? link : BASE_URL + link`). -/
def absolutize (l : String) : String :=
  if l.startsWith "http" then l else BASE_URL ++ l

/-- The body of the row callback: a row is kept only when both title and link
are truthy, with literal fallbacks for the remaining fields. -/
def mkListing (it : RawItem) : Option PropertyListing :=
  if it.title != "" && strTruthy it.link then
    some
      { title := it.title
        price := if it.price != "" then it.price else "Cena není uvedena"
        location :=
          if it.location != "" then
            it.location ++ (if it.location2 != "" then " - " ++ it.location2 else "")
          else "Lokalita není uvedena"
        description := it.descText
        url := absolutize (it.link.getD "")
        imageUrl :=
          match it.imageSrc with
          | some img => if img != "" then some (absolutize img) else none
          | none => none
        rating := if it.rating != "" then some it.rating else none }
  else none

/-- `maxResults || 10`: the `0` / `NaN` / absent cases all fall back to 10. -/
def effMaxNum (p : SearchParams) : JSNum :=
  match p.maxResults with
  | some v => if v.truthy then v else .val 10
  | none => .val 10

/-- JS `i >= v` for a row index and the effective maxResults value (false
against NaN). -/
def jsGE (i : Nat) : JSNum → Bool
  | .val q => decide (q ≤ (i : ℚ))
  | .nan => false
  | .posInf => false
  | .negInf => true

/-- The `.each` loop over rows: `if (i >= maxResults) return false` stops the
iteration; skipped rows (no title/link) still advance the index `i`. -/
def collectRows (mx : JSNum) : Nat → List RawItem → List PropertyListing
  | _, [] => []
  | i, r :: rest =>
    if jsGE i mx then []
    else
      match mkListing r with
      | some l => l :: collectRows mx (i + 1) rest
      | none => collectRows mx (i + 1) rest

/-- The client-side free-text filter applied after extraction: case-insensitive
substring match on title, description, or location; skipped when the query is
falsy or no listings were collected. -/
def applyQueryFilter (q : Option String) (listings : List PropertyListing) :
    List PropertyListing :=
  match q with
  | some qs =>
    if qs != "" && !listings.isEmpty then
      let ql := lowerStr qs
      listings.filter (fun l =>
        strIncludes (lowerStr l.title) ql || strIncludes (lowerStr l.description) ql ||
          strIncludes (lowerStr l.location) ql)
    else listings
  | none => listings

/-- `searchChalupy(params)`: validation, URL construction, politeness delay,
fetch with retry, row extraction capped by `maxResults || 10`, then the query
filter.  `page` supplies the rows the selector would find in the fetched HTML.
Returns the event trace together with the result. -/
def searchChalupy (p : SearchParams) (o : Nat → AttemptOutcome) (page : List RawItem) :
    List Event × Except Err (List PropertyListing) :=
  match validateSearchParams p with
  | .error e => ([], .error e)
  | .ok () =>
    match fetchWithRetry (buildSearchUrl p) o with
    | (evs, .failure m) =>
      (Event.delay 500 1500 :: evs, .error (.network ("Chyba při vyhledávání: " ++ m)))
    | (evs, .success _) =>
      (Event.delay 500 1500 :: evs,
        .ok (applyQueryFilter p.query (collectRows (effMaxNum p) 0 page)))

/-! ### Property details (`getPropertyDetails`) -/

def digitsToNat (ds : List Char) : Nat :=
  ds.foldl (fun n c => 10 * n + digitVal c) 0

/-- Match the regex `/(\d+)\s+<kw>/` anchored at the head of `l`: a maximal
digit run, at least one whitespace character, then the keyword.  Maximal-munch
is exact for this pattern: shrinking either greedy run leaves a digit where
whitespace is required or whitespace where the keyword is required. -/
def matchNumPhraseAt (kw : List Char) (l : List Char) : Option Nat :=
  let ds := l.takeWhile isDigitChar
  if ds.isEmpty then none
  else
    let rest := l.dropWhile isDigitChar
    if (rest.takeWhile jsWhitespace).isEmpty then none
    else if listPrefixB kw (rest.dropWhile jsWhitespace) then some (digitsToNat ds)
    else none

/-- Leftmost match of `/(\d+)\s+<kw>/` in a string: `str.match(...)` followed by
`parseInt` on the captured digit run. -/
def findNumPhrase (kw : List Char) : List Char → Option Nat
  | [] => none
  | c :: rest =>
    match matchNumPhraseAt kw (c :: rest) with
    | some n => some n
    | none => findNumPhrase kw rest

def osobKw : List Char := "osob".data

def loznicKw : List Char := "ložnic".data

/-- One iteration of the `.tag.tag-sm` loop body: a tag matching the capacity
pattern ASSIGNS `capacity` (so a later matching tag overwrites an earlier one),
and likewise for `bedrooms`; a tag matching neither leaves both as they were. -/
def scanTagsStep (acc : Option Nat × Option Nat) (t : String) : Option Nat × Option Nat :=
  (match findNumPhrase osobKw t.data with
   | some n => some n
   | none => acc.1,
   match findNumPhrase loznicKw t.data with
   | some n => some n
   | none => acc.2)

/-- The single pass over `.tag.tag-sm` elements, deriving `(capacity, bedrooms)`
from initially-undefined values. -/
def scanTags (tagTexts : List String) : Option Nat × Option Nat :=
  tagTexts.foldl scanTagsStep (none, none)

/-- One `.equipment-group` element: its `h3.title` text and its `li` texts. -/
structure EquipGroup where
  category : String
  items : List String
deriving DecidableEq, Repr

/-- Equipment grouping: empty item texts are dropped; a group with an empty
heading or no surviving items is omitted.  (The JS object would overwrite a
repeated category key; the claims do not involve equipment, and the detail
pages render distinct group headings.) -/
def buildEquipment (groups : List EquipGroup) : List (String × List String) :=
  groups.filterMap (fun g =>
    let items := g.items.filter (fun it => it != "")
    if g.category != "" && !items.isEmpty then some (g.category, items) else none)

/-- The scraped inputs of the detail extractor, as the trimmed selector text of
the fetched page (`metaDescContents` are the raw `content` attributes of the
`og:description` meta elements that are present and non-empty). -/
structure DetailPage where
  titleText : String
  numberText : String
  priceValue : String
  priceUnit : String
  metaDescContents : List String
  ratingText : String
  tagTexts : List String
  equipGroups : List EquipGroup
  descVybaveni : String
  descDefault : String
  imageSrc : Option String
deriving DecidableEq, Repr

structure PropertyDetails where
  title : String
  price : String
  location : String
  description : String
  fullDescription : String
  url : String
  imageUrl : Option String
  rating : Option String
  features : List String
  capacity : Option Nat
  bedrooms : Option Nat
  tags : List String
  equipment : List (String × List String)
deriving DecidableEq, Repr, Inhabited

/-- Remainder of `l` after the first occurrence of `pat`, or `none`. -/
def dropPastMatch (pat : List Char) : List Char → Option (List Char)
  | [] => if pat.isEmpty then some [] else none
  | c :: rest =>
    if listPrefixB pat (c :: rest) then some ((c :: rest).drop pat.length)
    else dropPastMatch pat rest

/-- The regex `/ubytování ([^⭐]*)/` on one meta `content` attribute, returning
the trimmed capture when the literal prefix occurs. -/
def metaLocationMatch (content : String) : Option String :=
  match dropPastMatch "ubytování ".data content.data with
  | some rest => some (jsTrim ⟨rest.takeWhile (fun c => c != '⭐')⟩)
  | none => none

/-- `fullDescription`: the equipment-section description, else the default-style
description, else empty. -/
def fullDescriptionOf (pg : DetailPage) : String :=
  if pg.descVybaveni != "" then pg.descVybaveni
  else if pg.descDefault != "" then pg.descDefault
  else ""

/-- `fullDescription.substring(0, 200) + (fullDescription.length > 200 ? "..." : "")`. -/
def shortDescription (full : String) : String :=
  ⟨full.data.take 200⟩ ++ (if full.data.length > 200 then "..." else "")

/-- The pure extraction part of `getPropertyDetails`, applied to the fetched
page's selector text. -/
def extractDetails (url : String) (pg : DetailPage) : PropertyDetails :=
  let equipment := buildEquipment pg.equipGroups
  let full := fullDescriptionOf pg
  let locJoined := String.intercalate ", " (pg.metaDescContents.filterMap metaLocationMatch)
  { title := jsTrim (pg.titleText ++ " " ++ pg.numberText)
    price :=
      if pg.priceValue != "" then jsTrim (pg.priceValue ++ " " ++ pg.priceUnit)
      else "Cena není uvedena"
    location := if locJoined != "" then locJoined else "Lokalita není uvedena"
    description := shortDescription full
    fullDescription := full
    url := url
    imageUrl :=
      match pg.imageSrc with
      | some img => if img != "" then some (absolutize img) else none
      | none => none
    rating := if pg.ratingText != "" then some pg.ratingText else none
    features := pg.tagTexts ++ (equipment.map Prod.snd).flatten
    capacity := (scanTags pg.tagTexts).1
    bedrooms := (scanTags pg.tagTexts).2
    tags := pg.tagTexts
    equipment := equipment }

/-- `getPropertyDetails(url)`: the URL safety gate, then politeness delay, fetch
with retry, and the detail extraction.  `pg` supplies the selector text of the
fetched page.  Returns the event trace together with the result. -/
def getPropertyDetails (url : String) (o : Nat → AttemptOutcome) (pg : DetailPage) :
    List Event × Except Err PropertyDetails :=
  match validateUrl url with
  | .error e => ([], .error e)
  | .ok _ =>
    match fetchWithRetry url o with
    | (evs, .failure m) =>
      (Event.delay 500 1500 :: evs, .error (.network ("Chyba při načítání detailu: " ++ m)))
    | (evs, .success _) =>
      (Event.delay 500 1500 :: evs, .ok (extractDetails url pg))

/-! ### Auxiliary observation predicates -/

def Err.isInvalidParameter : Err → Bool
  | .invalidParameter _ => true
  | _ => false

/-- Scanning check for event traces: given the preceding event, every `fetch`
event must be immediately preceded by the retry backoff delay. -/
def adjacentOk (prev : Event) : List Event → Bool
  | [] => true
  | e :: rest =>
    (match e with
     | .fetch _ => prev == .delay 1000 3000
     | .delay _ _ => true) && adjacentOk e rest

/-- Every fetch event except the very first one in the trace is immediately
preceded by a `delay 1000 3000` event. -/
def retryFetchesDelayed : List Event → Bool
  | [] => true
  | e :: rest => adjacentOk e rest

/-! ### Concrete inputs used by witnesses and counterexamples -/

/-- Outcome stream in which every attempt answers HTTP 200. -/
def oOK : Nat → AttemptOutcome := fun _ => .status 200

/-- Outcome stream: HTTP 404 on the first attempt, 200 afterwards. -/
def o404 : Nat → AttemptOutcome := fun i => if i = 0 then .status 404 else .status 200

def emptyDetailPage : DetailPage :=
  { titleText := "", numberText := "", priceValue := "", priceUnit := ""
    metaDescContents := [], ratingText := "", tagTexts := [], equipGroups := []
    descVybaveni := "", descDefault := "", imageSrc := none }

def wUrlOk : String := "https://www.e-chalupy.cz/chalupa-pohoda-123"

def wUrlHttp : String := "http://www.e-chalupy.cz/chalupa-pohoda-123"

/-- Detail page whose tag list has two capacity tags (4 persons, then 6). -/
def wPageTwoCaps : DetailPage := { emptyDetailPage with tagTexts := ["4 osob", "6 osob"] }

/-- Detail page with a short (< 200 characters) description. -/
def wPageShortDesc : DetailPage := { emptyDetailPage with descVybaveni := "Útulná chalupa se saunou." }

/-- The detail record produced on `wPageShortDesc`. -/
def wDetailShort : PropertyDetails :=
  ((getPropertyDetails wUrlOk oOK wPageShortDesc).2).toOption.getD default

/-- A search-result row carrying both a title and a link. -/
def wRow : RawItem :=
  { title := "Chalupa Pohoda", price := "", location := "", location2 := ""
    descText := "", link := some "/chalupa-pohoda-123", imageSrc := none, rating := "" }

def pMax0 : SearchParams := { maxResults := some (.val 0) }

def pMax101 : SearchParams := { maxResults := some (.val 101) }

def pTwoFeatures : SearchParams := { features := some ["se-saunou", "s-krbem"] }

def pOneFeature : SearchParams := { features := some ["se-saunou"] }

/-- Search parameters whose `dateFrom` is a non-existent calendar date. -/
def pBadDate : SearchParams := { dateFrom := some "2026-02-30" }

/-- A concrete catalog record. -/
def rgnSumava : Region := { slug := "sumava", name := "Šumava", count := 21 }

/-! ## Inversion lemmas -/

lemma getPropertyDetails_ok_inv {url : String} {o : Nat → AttemptOutcome} {pg : DetailPage}
    {d : PropertyDetails} (h : (getPropertyDetails url o pg).2 = .ok d) :
    d = extractDetails url pg := by
  unfold getPropertyDetails at h
  cases hv : validateUrl url with
  | error e => rw [hv] at h; simp at h
  | ok u =>
    rw [hv] at h
    cases hf : fetchWithRetry url o with
    | mk evs r =>
      rw [hf] at h
      cases r with
      | failure m => simp at h
      | success a => simpa using h.symm

lemma searchChalupy_validate_error {p : SearchParams} {o : Nat → AttemptOutcome}
    {pg : List RawItem} {e : Err} (h : validateSearchParams p = .error e) :
    searchChalupy p o pg = ([], .error e) := by
  unfold searchChalupy
  rw [h]

lemma searchChalupy_ok_inv {p : SearchParams} {o : Nat → AttemptOutcome}
    {pg : List RawItem} {l : List PropertyListing}
    (h : (searchChalupy p o pg).2 = .ok l) :
    validateSearchParams p = .ok () ∧
      l = applyQueryFilter p.query (collectRows (effMaxNum p) 0 pg) := by
  unfold searchChalupy at h
  cases hv : validateSearchParams p with
  | error e => rw [hv] at h; simp at h
  | ok u =>
    cases u
    rw [hv] at h
    refine ⟨rfl, ?_⟩
    cases hf : fetchWithRetry (buildSearchUrl p) o with
    | mk evs r =>
      rw [hf] at h
      cases r with
      | failure m => simp at h
      | success a => simpa using h.symm

/-! ## Tag-scan lemmas -/

lemma scanTags_append_cap {t : String} {n : Nat} (ts : List String)
    (h : findNumPhrase osobKw t.data = some n) :
    (scanTags (ts ++ [t])).1 = some n := by
  unfold scanTags
  rw [List.foldl_append]
  show (scanTagsStep _ t).1 = some n
  unfold scanTagsStep
  rw [h]

lemma scanTags_append_bed {t : String} {n : Nat} (ts : List String)
    (h : findNumPhrase loznicKw t.data = some n) :
    (scanTags (ts ++ [t])).2 = some n := by
  unfold scanTags
  rw [List.foldl_append]
  show (scanTagsStep _ t).2 = some n
  unfold scanTagsStep
  rw [h]

lemma foldl_scanTagsStep_cap_none :
    ∀ (ts : List String) (acc : Option Nat × Option Nat),
      (∀ t ∈ ts, findNumPhrase osobKw t.data = none) →
      (ts.foldl scanTagsStep acc).1 = acc.1 := by
  intro ts
  induction ts with
  | nil => intro acc _; rfl
  | cons t rest ih =>
    intro acc h
    show (rest.foldl scanTagsStep (scanTagsStep acc t)).1 = acc.1
    rw [ih _ (fun x hx => h x (List.mem_cons_of_mem _ hx))]
    unfold scanTagsStep
    rw [h t (List.mem_cons_self _ _)]

lemma foldl_scanTagsStep_bed_none :
    ∀ (ts : List String) (acc : Option Nat × Option Nat),
      (∀ t ∈ ts, findNumPhrase loznicKw t.data = none) →
      (ts.foldl scanTagsStep acc).2 = acc.2 := by
  intro ts
  induction ts with
  | nil => intro acc _; rfl
  | cons t rest ih =>
    intro acc h
    show (rest.foldl scanTagsStep (scanTagsStep acc t)).2 = acc.2
    rw [ih _ (fun x hx => h x (List.mem_cons_of_mem _ hx))]
    unfold scanTagsStep
    rw [h t (List.mem_cons_self _ _)]

/-! ## Claim C8 -/

/-- C8: in `getPropertyDetails`, the short `description` field equals the
200-character prefix of the full description with an ellipsis appended exactly
when the full description is longer than 200 characters; a full description of
at most 200 characters is returned whole, with no ellipsis. -/
theorem C8_short_description (url : String) (o : Nat → AttemptOutcome) (pg : DetailPage)
    (d : PropertyDetails) (h : (getPropertyDetails url o pg).2 = .ok d) :
    (200 < d.fullDescription.data.length →
      d.description = (⟨d.fullDescription.data.take 200⟩ : String) ++ "...") ∧
    (d.fullDescription.data.length ≤ 200 → d.description = d.fullDescription) := by
  have hd := getPropertyDetails_ok_inv h
  have hdesc : d.description = shortDescription (fullDescriptionOf pg) := by rw [hd]; rfl
  have hfull : d.fullDescription = fullDescriptionOf pg := by rw [hd]; rfl
  rw [hdesc, hfull]
  unfold shortDescription
  constructor
  · intro hl
    rw [if_pos hl]
  · intro hl
    rw [if_neg (by omega)]
    rw [List.take_of_length_le hl]
    simp

/-- Witness for C8: a concrete detail page with a short description is returned
whole, with no ellipsis. -/
theorem C8_short_description_witness :
    (getPropertyDetails wUrlOk oOK wPageShortDesc).2 = .ok wDetailShort ∧
    wDetailShort.fullDescription.data.length ≤ 200 ∧
    wDetailShort.description = wDetailShort.fullDescription := by
  have h : (getPropertyDetails wUrlOk oOK wPageShortDesc).2 = .ok wDetailShort := by decide
  exact ⟨h, by decide, (C8_short_description _ _ _ _ h).2 (by decide)⟩

/-! ## Claim C2 -/

/-- C2 counterexample: on a detail page whose tag list is
`["4 osob", "6 osob"]`, the extracted capacity is 14? no — it is 6: the LATER
matching tag overwrites the earlier one, refuting first-match-wins. -/
theorem C2_counterexample :
    ((getPropertyDetails wUrlOk oOK wPageTwoCaps).2).map PropertyDetails.capacity
      = .ok (some 6) ∧
    ((getPropertyDetails wUrlOk oOK wPageTwoCaps).2).map PropertyDetails.capacity
      ≠ .ok (some 4) := by
  constructor
  · decide
  · decide

/-- C2 (amended): in `getPropertyDetails` the capacity and bedrooms fields come
from the single pass over the tag list, where the LAST tag matching the
respective numeric-phrase pattern wins (a later matching tag overwrites an
earlier one); a tag `"chalupa 14 osob"` matches the capacity pattern with value
14, and when no tag matches, the field is left unset, never zero. -/
theorem C2_tag_scan (url : String) (o : Nat → AttemptOutcome) (pg : DetailPage)
    (d : PropertyDetails) (h : (getPropertyDetails url o pg).2 = .ok d) :
    d.capacity = (scanTags pg.tagTexts).1 ∧
    d.bedrooms = (scanTags pg.tagTexts).2 ∧
    (∀ (ts : List String) (t : String) (n : Nat),
      findNumPhrase osobKw t.data = some n → (scanTags (ts ++ [t])).1 = some n) ∧
    (∀ (ts : List String) (t : String) (n : Nat),
      findNumPhrase loznicKw t.data = some n → (scanTags (ts ++ [t])).2 = some n) ∧
    (∀ ts : List String,
      (∀ t ∈ ts, findNumPhrase osobKw t.data = none) → (scanTags ts).1 = none) ∧
    (∀ ts : List String,
      (∀ t ∈ ts, findNumPhrase loznicKw t.data = none) → (scanTags ts).2 = none) ∧
    findNumPhrase osobKw "chalupa 14 osob".data = some 14 := by
  have hd := getPropertyDetails_ok_inv h
  refine ⟨by rw [hd]; rfl, by rw [hd]; rfl, ?_, ?_, ?_, ?_, by decide⟩
  · intro ts t n hm
    exact scanTags_append_cap ts hm
  · intro ts t n hm
    exact scanTags_append_bed ts hm
  · intro ts hnone
    exact foldl_scanTagsStep_cap_none ts (none, none) hnone
  · intro ts hnone
    exact foldl_scanTagsStep_bed_none ts (none, none) hnone

/-- Witness for C2: on the concrete two-capacity-tag page, the amended theorem
yields capacity `some 6`. -/
theorem C2_tag_scan_witness :
    ((getPropertyDetails wUrlOk oOK wPageTwoCaps).2).map PropertyDetails.capacity
      = .ok ((scanTags wPageTwoCaps.tagTexts).1) := by
  have h : (getPropertyDetails wUrlOk oOK wPageTwoCaps).2
      = .ok (extractDetails wUrlOk wPageTwoCaps) := by decide
  rw [h]
  show Except.ok (extractDetails wUrlOk wPageTwoCaps).capacity = _
  rw [(C2_tag_scan wUrlOk oOK wPageTwoCaps _ h).1]

/-! ## Fetch-layer lemmas -/

lemma fetchLoop_events_prefixed (url : String) (o : Nat → AttemptOutcome) (i k : Nat) :
    ∃ tail, (fetchLoop url o i k).1 = attemptEvents url i ++ tail := by
  cases k with
  | zero => exact ⟨[], (List.append_nil _).symm⟩
  | succ k =>
    cases ho : o i with
    | status c =>
      by_cases hs : statusOk c = true
      · exact ⟨[], by simp [fetchLoop, ho, hs]⟩
      · exact ⟨(fetchLoop url o (i + 1) k).1, by simp [fetchLoop, ho, hs]⟩
    | timeout => exact ⟨[], by simp [fetchLoop, ho]⟩
    | netError m => exact ⟨(fetchLoop url o (i + 1) k).1, by simp [fetchLoop, ho]⟩

lemma fetchLoop_head (url : String) (o : Nat → AttemptOutcome) (i k : Nat) :
    ((fetchLoop url o i k).1).head? = (attemptEvents url i).head? := by
  obtain ⟨t, ht⟩ := fetchLoop_events_prefixed url o i k
  rw [ht]
  cases h0 : (i == 0) <;> simp [attemptEvents, h0]

lemma fetchLoop_any_fetch (url : String) (o : Nat → AttemptOutcome) (i k : Nat) :
    ((fetchLoop url o i k).1).any Event.isFetch = true := by
  obtain ⟨t, ht⟩ := fetchLoop_events_prefixed url o i k
  rw [ht]
  cases h0 : (i == 0) <;> simp [attemptEvents, h0, Event.isFetch]

/-! ## Claim C4 -/

/-- C4 counterexample: with `retries = 2`, a 404 response on the first attempt
does NOT fail immediately with the status code: a second attempt is issued
(after the retry backoff delay) and the call succeeds on it, so the non-5xx
status consumed a retry. -/
theorem C4_counterexample :
    fetchWithRetry "u" o404 2 =
      ([.fetch "u", .delay 1000 3000, .fetch "u"], .success 1) := by
  decide

/-- C4 (amended): in `fetchWithRetry`, EVERY non-2xx HTTP status — 5xx or not —
is treated as retryable, consuming one retry, while attempts remain; when no
attempts remain, the call fails with the status code in the error message; and
a 2xx status succeeds immediately. -/
theorem C4_retry_behavior (url : String) (o : Nat → AttemptOutcome) (i k c : Nat) :
    (o i = .status c → statusOk c = false →
      (fetchLoop url o i (k + 1)).2 = (fetchLoop url o (i + 1) k).2) ∧
    (o i = .status c → statusOk c = false →
      (fetchLoop url o i 0).2 = .failure (httpErrMsg c)) ∧
    (o i = .status c → statusOk c = true →
      (fetchLoop url o i k).2 = .success i) := by
  refine ⟨?_, ?_, ?_⟩
  · intro h hs
    simp [fetchLoop, h, hs]
  · intro h hs
    simp [fetchLoop, h, hs]
  · intro h hs
    cases k with
    | zero => simp [fetchLoop, h, hs]
    | succ k => simp [fetchLoop, h, hs]

/-- Witness for C4: with the concrete 404-then-200 outcome stream and one
attempt remaining, the first (404) attempt hands over to the second, which
succeeds. -/
theorem C4_retry_behavior_witness :
    (fetchLoop "u" o404 0 2).2 = (fetchLoop "u" o404 1 1).2 ∧
    (fetchLoop "u" o404 1 1).2 = .success 1 := by
  exact ⟨(C4_retry_behavior "u" o404 0 1 404).1 (by decide) (by decide),
         (C4_retry_behavior "u" o404 1 1 200).2.2 (by decide) (by decide)⟩

/-! ## Validation-chain lemmas -/

lemma bindUnit_ok_iff (a : Except Err Unit) (f : Unit → Except Err Unit) :
    (a >>= f) = .ok () ↔ a = .ok () ∧ f () = .ok () := by
  cases a with
  | error e => simp [Bind.bind, Except.bind]
  | ok u => cases u; simp [Bind.bind, Except.bind]

lemma bindUnit_error_inv {a : Except Err Unit} {f : Unit → Except Err Unit} {e : Err}
    (h : (a >>= f) = .error e) : a = .error e ∨ (a = .ok () ∧ f () = .error e) := by
  cases a with
  | error e2 => left; simpa [Bind.bind, Except.bind] using h
  | ok u => cases u; right; exact ⟨rfl, by simpa [Bind.bind, Except.bind] using h⟩

lemma vsp_ok_iff (p : SearchParams) :
    validateSearchParams p = .ok () ↔
      checkOptSlug p.region "region" = .ok () ∧
      checkFeatures p.features = .ok () ∧
      checkOptDate p.dateFrom = .ok () ∧
      checkOptDate p.dateTo = .ok () ∧
      checkOptNum p.persons "persons" = .ok () ∧
      checkOptNum p.priceMin "priceMin" = .ok () ∧
      checkOptNum p.priceMax "priceMax" = .ok () ∧
      checkMaxResults p.maxResults = .ok () := by
  unfold validateSearchParams
  simp [bindUnit_ok_iff, and_assoc]

lemma Err_invalidParameter_exists {e : Err} (h : e.isInvalidParameter = true) :
    ∃ m, e = .invalidParameter m := by
  cases e with
  | invalidParameter m => exact ⟨m, rfl⟩
  | invalidUrl m => simp [Err.isInvalidParameter] at h
  | network m => simp [Err.isInvalidParameter] at h

lemma validateSlug_error_inv {s ty : String} {e : Err} (h : validateSlug s ty = .error e) :
    e.isInvalidParameter = true := by
  unfold validateSlug at h
  split at h
  · cases h; rfl
  · split at h
    · cases h; rfl
    · simp at h

lemma validateDate_error_inv {s : String} {e : Err} (h : validateDate s = .error e) :
    e.isInvalidParameter = true := by
  unfold validateDate at h
  split at h
  · cases h; rfl
  · split at h
    · cases h; rfl
    · simp at h

lemma validatePositiveNumber_error_inv {v : JSNum} {name : String} {e : Err}
    (h : validatePositiveNumber v name = .error e) : e.isInvalidParameter = true := by
  unfold validatePositiveNumber at h
  split at h
  · cases h; rfl
  · simp at h

lemma checkOptSlug_error_inv {os : Option String} {ty : String} {e : Err}
    (h : checkOptSlug os ty = .error e) : e.isInvalidParameter = true := by
  cases os with
  | none => simp [checkOptSlug] at h
  | some s =>
    rw [checkOptSlug] at h
    split at h
    · exact validateSlug_error_inv h
    · simp at h

lemma validateFeatureList_error_inv {fs : List String} {e : Err}
    (h : validateFeatureList fs = .error e) : e.isInvalidParameter = true := by
  induction fs with
  | nil => simp [validateFeatureList] at h
  | cons f rest ih =>
    unfold validateFeatureList at h
    rcases bindUnit_error_inv h with h1 | ⟨_, h2⟩
    · exact validateSlug_error_inv h1
    · exact ih h2

lemma checkFeatures_error_inv {ofs : Option (List String)} {e : Err}
    (h : checkFeatures ofs = .error e) : e.isInvalidParameter = true := by
  cases ofs with
  | none => simp [checkFeatures] at h
  | some fs => exact validateFeatureList_error_inv (by rw [checkFeatures] at h; exact h)

lemma checkOptDate_error_inv {od : Option String} {e : Err}
    (h : checkOptDate od = .error e) : e.isInvalidParameter = true := by
  cases od with
  | none => simp [checkOptDate] at h
  | some d =>
    rw [checkOptDate] at h
    split at h
    · exact validateDate_error_inv h
    · simp at h

lemma checkOptNum_error_inv {ov : Option JSNum} {name : String} {e : Err}
    (h : checkOptNum ov name = .error e) : e.isInvalidParameter = true := by
  cases ov with
  | none => simp [checkOptNum] at h
  | some v => exact validatePositiveNumber_error_inv (by rw [checkOptNum] at h; exact h)

lemma checkMaxResults_error_inv {ov : Option JSNum} {e : Err}
    (h : checkMaxResults ov = .error e) : e.isInvalidParameter = true := by
  cases ov with
  | none => simp [checkMaxResults] at h
  | some v =>
    rw [checkMaxResults] at h
    rcases bindUnit_error_inv h with h1 | ⟨_, h2⟩
    · exact validatePositiveNumber_error_inv h1
    · split at h2
      · cases h2; rfl
      · simp at h2

lemma vsp_error_inv {p : SearchParams} {e : Err}
    (h : validateSearchParams p = .error e) : e.isInvalidParameter = true := by
  unfold validateSearchParams at h
  rcases bindUnit_error_inv h with h1 | ⟨_, h⟩
  · exact checkOptSlug_error_inv h1
  rcases bindUnit_error_inv h with h1 | ⟨_, h⟩
  · exact checkFeatures_error_inv h1
  rcases bindUnit_error_inv h with h1 | ⟨_, h⟩
  · exact checkOptDate_error_inv h1
  rcases bindUnit_error_inv h with h1 | ⟨_, h⟩
  · exact checkOptDate_error_inv h1
  rcases bindUnit_error_inv h with h1 | ⟨_, h⟩
  · exact checkOptNum_error_inv h1
  rcases bindUnit_error_inv h with h1 | ⟨_, h⟩
  · exact checkOptNum_error_inv h1
  rcases bindUnit_error_inv h with h1 | ⟨_, h⟩
  · exact checkOptNum_error_inv h1
  exact checkMaxResults_error_inv h

/-- For a parameter set whose validation fails, `searchChalupy` performs no
event (no delay, no fetch) and surfaces an `invalidParameter` error. -/
lemma searchChalupy_invalid (p : SearchParams) (o : Nat → AttemptOutcome)
    (pg : List RawItem) (hne : validateSearchParams p ≠ .ok ()) :
    (searchChalupy p o pg).1 = [] ∧
      ∃ m, (searchChalupy p o pg).2 = .error (.invalidParameter m) := by
  cases hv : validateSearchParams p with
  | ok u => cases u; exact absurd hv hne
  | error e =>
    obtain ⟨m, hm⟩ := Err_invalidParameter_exists (vsp_error_inv hv)
    have hsc := @searchChalupy_validate_error p o pg e hv
    exact ⟨by rw [hsc], ⟨m, by rw [hsc, hm]⟩⟩

/-! ## Claim C6 -/

/-- C6: date validation accepts a string iff it has the exact `YYYY-MM-DD`
shape and denotes a real calendar date (leap years respected); any other string
fails with an `invalidParameter` error, and a search with such a date field
performs no network request (indeed no event at all).  Concretely,
`"2026-02-30"` and `"2026-02-29"` are rejected while `"2024-02-29"` and
`"2026-07-11"` are accepted. -/
theorem C6_date_validation :
    (∀ s : String, validateDate s = .ok () ↔
      ∃ y m d, dateFields s = some (y, m, d) ∧ isRealCalendarDate y m d = true) ∧
    (∀ (s : String) (e : Err), validateDate s = .error e → e.isInvalidParameter = true) ∧
    (∀ (p : SearchParams) (o : Nat → AttemptOutcome) (pg : List RawItem) (ds : String),
      p.dateFrom = some ds → ds ≠ "" → validateDate ds ≠ .ok () →
      (searchChalupy p o pg).1 = [] ∧
        ∃ m, (searchChalupy p o pg).2 = .error (.invalidParameter m)) ∧
    (∀ (p : SearchParams) (o : Nat → AttemptOutcome) (pg : List RawItem) (ds : String),
      p.dateTo = some ds → ds ≠ "" → validateDate ds ≠ .ok () →
      (searchChalupy p o pg).1 = [] ∧
        ∃ m, (searchChalupy p o pg).2 = .error (.invalidParameter m)) ∧
    validateDate "2026-02-30" = .error (.invalidParameter "Neplatné datum: 2026-02-30") ∧
    validateDate "2026-02-29" ≠ .ok () ∧
    validateDate "2024-02-29" = .ok () ∧
    validateDate "2026-07-11" = .ok () ∧
    validateDate "11.07.2026" ≠ .ok () := by
  refine ⟨?_, ?_, ?_, ?_, by decide, by decide, by decide, by decide, by decide⟩
  · intro s
    constructor
    · intro h
      unfold validateDate at h
      by_cases hp : datePatternOk s = true
      · by_cases hv : jsDateTimeValid s = true
        · obtain ⟨⟨y, m, d⟩, hf⟩ := Option.isSome_iff_exists.mp hp
          refine ⟨y, m, d, hf, ?_⟩
          unfold jsDateTimeValid at hv
          rw [hf] at hv
          exact hv
        · rw [Bool.not_eq_true] at hv
          simp [hp, hv] at h
      · rw [Bool.not_eq_true] at hp
        simp [hp] at h
    · rintro ⟨y, m, d, hf, hreal⟩
      have hp : datePatternOk s = true := by unfold datePatternOk; rw [hf]; rfl
      have hv : jsDateTimeValid s = true := by unfold jsDateTimeValid; rw [hf]; exact hreal
      simp [validateDate, hp, hv]
  · intro s e h
    exact validateDate_error_inv h
  · intro p o pg ds hdf hne hbad
    refine searchChalupy_invalid p o pg (fun hok => ?_)
    have hcd := ((vsp_ok_iff p).mp hok).2.2.1
    rw [hdf, checkOptDate, if_pos (bne_iff_ne.mpr hne)] at hcd
    exact hbad hcd
  · intro p o pg ds hdt hne hbad
    refine searchChalupy_invalid p o pg (fun hok => ?_)
    have hcd := ((vsp_ok_iff p).mp hok).2.2.2.1
    rw [hdt, checkOptDate, if_pos (bne_iff_ne.mpr hne)] at hcd
    exact hbad hcd

/-- Witness for C6: the concrete parameter set with `dateFrom = "2026-02-30"`
is rejected with an `invalidParameter` error and produces no event. -/
theorem C6_date_validation_witness :
    (searchChalupy pBadDate oOK []).1 = [] ∧
    ∃ m, (searchChalupy pBadDate oOK []).2 = .error (.invalidParameter m) :=
  C6_date_validation.2.2.1 pBadDate oOK [] "2026-02-30" rfl (by decide) (by decide)

/-! ## Delay-placement lemmas -/

lemma adjacentOk_fetchLoop (url : String) (o : Nat → AttemptOutcome) :
    ∀ (k i : Nat) (a : Event), 1 ≤ i → adjacentOk a ((fetchLoop url o i k).1) = true := by
  intro k
  induction k with
  | zero =>
    intro i a hi
    have hi0 : (i == 0) = false := by simp; omega
    simp [fetchLoop, attemptEvents, hi0, adjacentOk]
  | succ k ih =>
    intro i a hi
    have hi0 : (i == 0) = false := by simp; omega
    cases ho : o i with
    | status c =>
      by_cases hs : statusOk c = true
      · simp [fetchLoop, ho, hs, attemptEvents, hi0, adjacentOk]
      · simp only [fetchLoop, ho, hs]
        simp [attemptEvents, hi0, adjacentOk]
        exact ih (i + 1) (.fetch url) (by omega)
    | timeout => simp [fetchLoop, ho, attemptEvents, hi0, adjacentOk]
    | netError m =>
      simp only [fetchLoop, ho]
      simp [attemptEvents, hi0, adjacentOk]
      exact ih (i + 1) (.fetch url) (by omega)

lemma retryFetchesDelayed_fetchWithRetry (url : String) (o : Nat → AttemptOutcome)
    (retries : Nat) : retryFetchesDelayed ((fetchWithRetry url o retries).1) = true := by
  unfold fetchWithRetry
  cases retries with
  | zero => simp [fetchLoop, attemptEvents, retryFetchesDelayed, adjacentOk]
  | succ k =>
    cases ho : o 0 with
    | status c =>
      by_cases hs : statusOk c = true
      · simp [fetchLoop, ho, hs, attemptEvents, retryFetchesDelayed, adjacentOk]
      · simp only [fetchLoop, ho, hs]
        simp [attemptEvents, retryFetchesDelayed, adjacentOk]
        exact adjacentOk_fetchLoop url o k 1 (.fetch url) le_rfl
    | timeout => simp [fetchLoop, ho, attemptEvents, retryFetchesDelayed, adjacentOk]
    | netError m =>
      simp only [fetchLoop, ho]
      simp [attemptEvents, retryFetchesDelayed, adjacentOk]
      exact adjacentOk_fetchLoop url o k 1 (.fetch url) le_rfl

lemma searchChalupy_head_delay {p : SearchParams} (o : Nat → AttemptOutcome)
    (pg : List RawItem) (hok : validateSearchParams p = .ok ()) :
    ((searchChalupy p o pg).1).head? = some (.delay 500 1500) := by
  unfold searchChalupy
  rw [hok]
  cases hf : fetchWithRetry (buildSearchUrl p) o with
  | mk evs r => cases r <;> rfl

lemma getPropertyDetails_head_delay {url : String} {u : JSURL} (o : Nat → AttemptOutcome)
    (pg : DetailPage) (hok : validateUrl url = .ok u) :
    ((getPropertyDetails url o pg).1).head? = some (.delay 500 1500) := by
  unfold getPropertyDetails
  rw [hok]
  cases hf : fetchWithRetry url o with
  | mk evs r => cases r <;> rfl

lemma fetchWithRetry_head (url : String) (o : Nat → AttemptOutcome) (retries : Nat) :
    ((fetchWithRetry url o retries).1).head? = some (.fetch url) := by
  unfold fetchWithRetry
  rw [fetchLoop_head]
  rfl

lemma listRegions_miss_head {st : CacheState Region} {now : ℤ}
    (o : Nat → AttemptOutcome) (page : List Region) (h : (cacheGet st now).1 = none) :
    ((listRegions st now o page).2.2).head? = some (.fetch catalogUrl) := by
  cases hc : cacheGet st now with
  | mk copt st1 =>
    rw [hc] at h
    cases copt with
    | some c => simp at h
    | none =>
      simp only [listRegions, hc]
      cases hf : (fetchWithRetry catalogUrl o).2 with
      | success a => simp [hf, fetchWithRetry_head]
      | failure m => simp [hf, fetchWithRetry_head]

lemma listFeatures_miss_head {st : CacheState Feature} {now : ℤ}
    (o : Nat → AttemptOutcome) (page : List Feature) (h : (cacheGet st now).1 = none) :
    ((listFeatures st now o page).2.2).head? = some (.fetch catalogUrl) := by
  cases hc : cacheGet st now with
  | mk copt st1 =>
    rw [hc] at h
    cases copt with
    | some c => simp at h
    | none =>
      simp only [listFeatures, hc]
      cases hf : (fetchWithRetry catalogUrl o).2 with
      | success a => simp [hf, fetchWithRetry_head]
      | failure m => simp [hf, fetchWithRetry_head]

lemma randomDelayMs_bounds (mn mx : Nat) (r : ℚ) (hmn : mn ≤ mx) (h0 : 0 ≤ r)
    (h1 : r < 1) : (mn : ℤ) ≤ randomDelayMs mn mx r ∧ randomDelayMs mn mx r ≤ (mx : ℤ) := by
  unfold randomDelayMs
  have hcast : (mn : ℚ) ≤ (mx : ℚ) := by exact_mod_cast hmn
  have hfac : (0 : ℚ) < (mx : ℚ) - (mn : ℚ) + 1 := by linarith
  constructor
  · have hnn : (0 : ℤ) ≤ ⌊r * ((mx : ℚ) - (mn : ℚ) + 1)⌋ :=
      Int.floor_nonneg.mpr (mul_nonneg h0 (le_of_lt hfac))
    omega
  · have hlt : r * ((mx : ℚ) - (mn : ℚ) + 1) < (mx : ℚ) - (mn : ℚ) + 1 := by
      calc r * ((mx : ℚ) - (mn : ℚ) + 1)
          < 1 * ((mx : ℚ) - (mn : ℚ) + 1) := mul_lt_mul_of_pos_right h1 hfac
        _ = (mx : ℚ) - (mn : ℚ) + 1 := one_mul _
    have hfl : ⌊r * ((mx : ℚ) - (mn : ℚ) + 1)⌋ < (mx : ℤ) - (mn : ℤ) + 1 := by
      rw [Int.floor_lt]
      push_cast
      linarith
    omega

/-! ## Claim C5 -/

/-- C5 counterexample: `listRegions` on a cache miss issues its outbound request
with NO preceding politeness delay: the trace is exactly one fetch event, and
its first event is not a `delay 500 1500`. -/
theorem C5_counterexample :
    (listRegions ⟨none⟩ 0 oOK [rgnSumava]).2.2 = [Event.fetch catalogUrl] ∧
    ((listRegions ⟨none⟩ 0 oOK [rgnSumava]).2.2).head? ≠ some (Event.delay 500 1500) := by
  constructor
  · decide
  · decide

/-- C5 (amended): `searchChalupy` and `getPropertyDetails` take the randomized
500–1500 ms politeness delay before their first outbound request; `listRegions`
and `listFeatures` start their cache-miss trace directly with the fetch, with
no politeness delay; every retry attempt (index > 0) inside `fetchWithRetry` is
immediately preceded by the longer jittered 1000–3000 ms delay; and the delay
computed by `randomDelay(min, max)` always lies within `[min, max]`. -/
theorem C5_politeness_delays :
    (∀ (p : SearchParams) (o : Nat → AttemptOutcome) (pg : List RawItem),
      validateSearchParams p = .ok () →
      ((searchChalupy p o pg).1).head? = some (.delay 500 1500)) ∧
    (∀ (url : String) (u : JSURL) (o : Nat → AttemptOutcome) (pg : DetailPage),
      validateUrl url = .ok u →
      ((getPropertyDetails url o pg).1).head? = some (.delay 500 1500)) ∧
    (∀ (st : CacheState Region) (now : ℤ) (o : Nat → AttemptOutcome) (page : List Region),
      (cacheGet st now).1 = none →
      ((listRegions st now o page).2.2).head? = some (.fetch catalogUrl)) ∧
    (∀ (st : CacheState Feature) (now : ℤ) (o : Nat → AttemptOutcome) (page : List Feature),
      (cacheGet st now).1 = none →
      ((listFeatures st now o page).2.2).head? = some (.fetch catalogUrl)) ∧
    (∀ (url : String) (o : Nat → AttemptOutcome) (retries : Nat),
      retryFetchesDelayed ((fetchWithRetry url o retries).1) = true) ∧
    (∀ (mn mx : Nat) (r : ℚ), mn ≤ mx → 0 ≤ r → r < 1 →
      (mn : ℤ) ≤ randomDelayMs mn mx r ∧ randomDelayMs mn mx r ≤ (mx : ℤ)) := by
  refine ⟨?_, ?_, ?_, ?_, ?_, ?_⟩
  · intro p o pg hok
    exact searchChalupy_head_delay o pg hok
  · intro url u o pg hok
    exact getPropertyDetails_head_delay o pg hok
  · intro st now o page h
    exact listRegions_miss_head o page h
  · intro st now o page h
    exact listFeatures_miss_head o page h
  · intro url o retries
    exact retryFetchesDelayed_fetchWithRetry url o retries
  · intro mn mx r hmn h0 h1
    exact randomDelayMs_bounds mn mx r hmn h0 h1

/-- Witness for C5: on the empty (hence valid) parameter set, the search trace
opens with the politeness delay event. -/
theorem C5_politeness_delays_witness :
    ((searchChalupy {} oOK []).1).head? = some (.delay 500 1500) :=
  C5_politeness_delays.1 {} oOK [] (by decide)

/-! ## URL-gate lemmas -/

lemma validateUrl_ok_iff (url : String) (u : JSURL) :
    validateUrl url = .ok u ↔
      parseURL url = some u ∧ u.hostname = ALLOWED_HOSTNAME ∧ u.protocol = "https:" := by
  constructor
  · intro h
    unfold validateUrl at h
    cases hp : parseURL url with
    | none => rw [hp] at h; simp [validateUrlParsed] at h
    | some p =>
      rw [hp, validateUrlParsed] at h
      by_cases h1 : p.hostname = ALLOWED_HOSTNAME
      · by_cases h2 : p.protocol = "https:"
        · have hb1 : (p.hostname != ALLOWED_HOSTNAME) = false := by simp [h1]
          have hb2 : (p.protocol != "https:") = false := by simp [h2]
          rw [hb1, hb2] at h
          simp at h
          exact ⟨by rw [h], by rw [← h]; exact h1, by rw [← h]; exact h2⟩
        · have hb1 : (p.hostname != ALLOWED_HOSTNAME) = false := by simp [h1]
          have hb2 : (p.protocol != "https:") = true := bne_iff_ne.mpr h2
          rw [hb1, hb2] at h
          simp at h
      · have hb1 : (p.hostname != ALLOWED_HOSTNAME) = true := bne_iff_ne.mpr h1
        rw [hb1] at h
        simp at h
  · rintro ⟨hp, h1, h2⟩
    unfold validateUrl
    rw [hp, validateUrlParsed]
    have hb1 : (u.hostname != ALLOWED_HOSTNAME) = false := by simp [h1]
    have hb2 : (u.protocol != "https:") = false := by simp [h2]
    rw [hb1, hb2]
    simp

lemma getPropertyDetails_err {url : String} {o : Nat → AttemptOutcome} {pg : DetailPage}
    {e : Err} (h : validateUrl url = .error e) :
    getPropertyDetails url o pg = ([], .error e) := by
  unfold getPropertyDetails
  rw [h]

lemma getPropertyDetails_events_ok {url : String} {u : JSURL} {o : Nat → AttemptOutcome}
    {pg : DetailPage} (hok : validateUrl url = .ok u) :
    (getPropertyDetails url o pg).1 = Event.delay 500 1500 :: (fetchWithRetry url o).1 := by
  unfold getPropertyDetails
  rw [hok]
  cases hf : fetchWithRetry url o with
  | mk evs r => cases r <;> rfl

/-! ## Claim C3 -/

/-- C3: `getPropertyDetails` reaches the network if and only if the candidate
URL parses as an absolute URL whose hostname exactly equals the single allowed
host and whose protocol is exactly `https:`; a candidate failing any of these
conditions yields an `invalidUrl` error and an empty event trace (no fetch, no
delay); in particular, `http://` on the correct host is rejected with the
HTTPS-protocol error. -/
theorem C3_url_gate :
    (∀ (url : String) (o : Nat → AttemptOutcome) (pg : DetailPage),
      ((getPropertyDetails url o pg).1).any Event.isFetch = true ↔
        ∃ u, parseURL url = some u ∧ u.hostname = ALLOWED_HOSTNAME ∧
          u.protocol = "https:") ∧
    (∀ (url : String) (o : Nat → AttemptOutcome) (pg : DetailPage),
      parseURL url = none →
        getPropertyDetails url o pg = ([], .error (.invalidUrl "Neplatná URL adresa"))) ∧
    (∀ (url : String) (u : JSURL) (o : Nat → AttemptOutcome) (pg : DetailPage),
      parseURL url = some u →
      (u.hostname ≠ ALLOWED_HOSTNAME ∨ u.protocol ≠ "https:") →
      (getPropertyDetails url o pg).1 = [] ∧
        ∃ m, (getPropertyDetails url o pg).2 = .error (.invalidUrl m)) ∧
    (getPropertyDetails wUrlHttp oOK emptyDetailPage).2
      = .error (.invalidUrl "URL musí používat HTTPS protokol") := by
  refine ⟨?_, ?_, ?_, by decide⟩
  · intro url o pg
    constructor
    · intro h
      cases hv : validateUrl url with
      | error e =>
        rw [getPropertyDetails_err hv] at h
        simp at h
      | ok u =>
        obtain ⟨hp, h1, h2⟩ := (validateUrl_ok_iff url u).mp hv
        exact ⟨u, hp, h1, h2⟩
    · rintro ⟨u, hp, h1, h2⟩
      have hv : validateUrl url = .ok u := (validateUrl_ok_iff url u).mpr ⟨hp, h1, h2⟩
      rw [getPropertyDetails_events_ok hv]
      have hany : ((fetchWithRetry url o).1).any Event.isFetch = true := by
        unfold fetchWithRetry
        exact fetchLoop_any_fetch url o 0 _
      simp [List.any_cons, Event.isFetch, hany]
  · intro url o pg hp
    have hv : validateUrl url = .error (.invalidUrl "Neplatná URL adresa") := by
      unfold validateUrl
      rw [hp]
      rfl
    exact getPropertyDetails_err hv
  · intro url u o pg hp hbad
    have hv : ∃ m, validateUrl url = .error (.invalidUrl m) := by
      unfold validateUrl
      rw [hp, validateUrlParsed]
      by_cases h1 : u.hostname = ALLOWED_HOSTNAME
      · have h2 : u.protocol ≠ "https:" := by
          rcases hbad with hb | hb
          · exact absurd h1 hb
          · exact hb
        have hb1 : (u.hostname != ALLOWED_HOSTNAME) = false := by simp [h1]
        have hb2 : (u.protocol != "https:") = true := bne_iff_ne.mpr h2
        rw [hb1, hb2]
        exact ⟨_, rfl⟩
      · have hb1 : (u.hostname != ALLOWED_HOSTNAME) = true := bne_iff_ne.mpr h1
        rw [hb1]
        exact ⟨_, rfl⟩
    obtain ⟨m, hm⟩ := hv
    rw [getPropertyDetails_err hm]
    exact ⟨rfl, m, rfl⟩

/-- Witness for C3: the `http://` URL on the correct host produces no event and
an `invalidUrl` error. -/
theorem C3_url_gate_witness :
    (getPropertyDetails wUrlHttp oOK emptyDetailPage).1 = [] ∧
    ∃ m, (getPropertyDetails wUrlHttp oOK emptyDetailPage).2 = .error (.invalidUrl m) :=
  C3_url_gate.2.2.1 wUrlHttp ⟨"http:", "www.e-chalupy.cz"⟩ oOK emptyDetailPage
    (by decide) (.inr (by decide))

/-! ## Cache lemmas -/

lemma cacheGet_stale {T : Type} (st : CacheState T) (now : ℤ) (e : CacheEntry T)
    (hst : st.entry = some e) (h : now - e.timestamp > CACHE_TTL_MS) :
    cacheGet st now = (none, ⟨none⟩) := by
  obtain ⟨ent⟩ := st
  subst hst
  simp [cacheGet, h]

lemma cacheGet_fresh {T : Type} (st : CacheState T) (now : ℤ) (e : CacheEntry T)
    (hst : st.entry = some e) (h : now - e.timestamp ≤ CACHE_TTL_MS) :
    cacheGet st now = (some e.data, st) := by
  obtain ⟨ent⟩ := st
  subst hst
  simp [cacheGet, not_lt.mpr h]

lemma listRegions_hit {st : CacheState Region} {now : ℤ} {o : Nat → AttemptOutcome}
    {page : List Region} {cached : List Region} {st1 : CacheState Region}
    (hc : cacheGet st now = (some cached, st1)) :
    listRegions st now o page = (.ok cached, st1, []) := by
  unfold listRegions
  rw [hc]

lemma listRegions_miss_success {st : CacheState Region} {now : ℤ}
    {o : Nat → AttemptOutcome} {page : List Region} {st1 : CacheState Region} {a : Nat}
    (hc : cacheGet st now = (none, st1)) (hf : (fetchWithRetry catalogUrl o).2 = .success a) :
    listRegions st now o page
      = (.ok page, cacheSet page now, (fetchWithRetry catalogUrl o).1) := by
  unfold listRegions
  rw [hc]
  simp [hf]

lemma listRegions_miss_failure {st : CacheState Region} {now : ℤ}
    {o : Nat → AttemptOutcome} {page : List Region} {st1 : CacheState Region} {m : String}
    (hc : cacheGet st now = (none, st1)) (hf : (fetchWithRetry catalogUrl o).2 = .failure m) :
    listRegions st now o page
      = (.error (.network ("Chyba při načítání regionů: " ++ m)), st1,
          (fetchWithRetry catalogUrl o).1) := by
  unfold listRegions
  rw [hc]
  simp [hf]

lemma listRegions_ok_cases {st : CacheState Region} {now : ℤ} {o : Nat → AttemptOutcome}
    {page l : List Region} {st' : CacheState Region} {evs : List Event}
    (h : listRegions st now o page = (.ok l, st', evs)) :
    (cacheGet st now = (some l, st') ∧ evs = []) ∨
    ((cacheGet st now).1 = none ∧ l = page ∧ st' = cacheSet page now ∧
      evs = (fetchWithRetry catalogUrl o).1) := by
  cases hc : cacheGet st now with
  | mk copt st1 =>
    cases copt with
    | some c =>
      rw [listRegions_hit hc] at h
      simp at h
      obtain ⟨hcl, hst', hevs⟩ := h
      exact .inl ⟨by rw [hcl, hst'], hevs⟩
    | none =>
      cases hf : (fetchWithRetry catalogUrl o).2 with
      | success a =>
        rw [listRegions_miss_success hc hf] at h
        simp at h
        obtain ⟨hl, hst', hevs⟩ := h
        exact .inr ⟨rfl, hl.symm, hst'.symm, hevs.symm⟩
      | failure m =>
        rw [listRegions_miss_failure hc hf] at h
        simp at h

lemma listRegions_miss_any_fetch {st : CacheState Region} {now : ℤ}
    (o : Nat → AttemptOutcome) (page : List Region) (h : (cacheGet st now).1 = none) :
    ((listRegions st now o page).2.2).any Event.isFetch = true := by
  have hany : ((fetchWithRetry catalogUrl o).1).any Event.isFetch = true := by
    unfold fetchWithRetry
    exact fetchLoop_any_fetch catalogUrl o 0 _
  cases hc : cacheGet st now with
  | mk copt st1 =>
    rw [hc] at h
    cases copt with
    | some c => simp at h
    | none =>
      cases hf : (fetchWithRetry catalogUrl o).2 with
      | success a => rw [listRegions_miss_success hc hf]; exact hany
      | failure m => rw [listRegions_miss_failure hc hf]; exact hany

/-! ## Claim C7 -/

/-- C7: the catalog cache never serves a stale entry: a read strictly more than
1 hour (in ms) after the stored timestamp returns absent and clears the slot,
and any younger read returns the stored sequence with the state unchanged;
consequently, when a `listRegions` call succeeds, a second call within the TTL
window performs no fetch in at least one of the two calls (at most one
fetch-layer invocation between them), and once the TTL has elapsed after a
fetching first call, the next call fetches again. -/
theorem C7_cache_ttl :
    (∀ (T : Type) (st : CacheState T) (now : ℤ) (e : CacheEntry T),
      st.entry = some e → now - e.timestamp > CACHE_TTL_MS →
      cacheGet st now = (none, ⟨none⟩)) ∧
    (∀ (T : Type) (st : CacheState T) (now : ℤ) (e : CacheEntry T),
      st.entry = some e → now - e.timestamp ≤ CACHE_TTL_MS →
      cacheGet st now = (some e.data, st)) ∧
    (∀ (st0 : CacheState Region) (t1 t2 : ℤ) (o1 o2 : Nat → AttemptOutcome)
        (pg1 pg2 l1 : List Region) (st1 : CacheState Region) (e1 : List Event),
      listRegions st0 t1 o1 pg1 = (.ok l1, st1, e1) → t1 ≤ t2 →
      t2 - t1 ≤ CACHE_TTL_MS →
      ¬(e1.any Event.isFetch = true ∧
        ((listRegions st1 t2 o2 pg2).2.2).any Event.isFetch = true)) ∧
    (∀ (st0 : CacheState Region) (t1 t2 : ℤ) (o1 o2 : Nat → AttemptOutcome)
        (pg1 pg2 l1 : List Region) (st1 : CacheState Region) (e1 : List Event),
      listRegions st0 t1 o1 pg1 = (.ok l1, st1, e1) → e1.any Event.isFetch = true →
      t2 - t1 > CACHE_TTL_MS →
      ((listRegions st1 t2 o2 pg2).2.2).any Event.isFetch = true) := by
  refine ⟨?_, ?_, ?_, ?_⟩
  · intro T st now e hst h
    exact cacheGet_stale st now e hst h
  · intro T st now e hst h
    exact cacheGet_fresh st now e hst h
  · intro st0 t1 t2 o1 o2 pg1 pg2 l1 st1 e1 h hle httl
    rintro ⟨hf1, hf2⟩
    rcases listRegions_ok_cases h with ⟨hc, hevs⟩ | ⟨hmiss, hl, hst', hevs⟩
    · rw [hevs] at hf1
      simp at hf1
    · subst hst'
      have hfresh : cacheGet (cacheSet pg1 t1) t2 = (some pg1, cacheSet pg1 t1) :=
        cacheGet_fresh _ t2 ⟨pg1, t1⟩ rfl httl
      rw [listRegions_hit hfresh] at hf2
      simp at hf2
  · intro st0 t1 t2 o1 o2 pg1 pg2 l1 st1 e1 h hf1 httl
    rcases listRegions_ok_cases h with ⟨hc, hevs⟩ | ⟨hmiss, hl, hst', hevs⟩
    · rw [hevs] at hf1
      simp at hf1
    · subst hst'
      have hstale : cacheGet (cacheSet pg1 t1) t2 = (none, ⟨none⟩) :=
        cacheGet_stale _ t2 ⟨pg1, t1⟩ rfl httl
      exact listRegions_miss_any_fetch o2 pg2 (by rw [hstale])

/-- Witness for C7: a concrete first call on an empty cache at time 0 fetches
and caches, and a second call at time 1000 ms serves the cache, so the two
calls do not both fetch. -/
theorem C7_cache_ttl_witness :
    ¬(([Event.fetch catalogUrl] : List Event).any Event.isFetch = true ∧
      ((listRegions (cacheSet [rgnSumava] 0) 1000 oOK []).2.2).any Event.isFetch = true) :=
  C7_cache_ttl.2.2.1 ⟨none⟩ 0 1000 oOK oOK [rgnSumava] [] [rgnSumava]
    (cacheSet [rgnSumava] 0) [Event.fetch catalogUrl] (by decide) (by decide) (by decide)

/-! ## Row-collection lemmas -/

lemma collectRows_length_le (n : ℕ) :
    ∀ (rows : List RawItem) (i : ℕ),
      (collectRows (.val (n : ℚ)) i rows).length ≤ n - i := by
  intro rows
  induction rows with
  | nil => intro i; simp [collectRows]
  | cons r rest ih =>
    intro i
    by_cases hge : jsGE i (.val (n : ℚ)) = true
    · simp [collectRows, hge]
    · have hlt : i < n := by
        unfold jsGE at hge
        simp at hge
        exact_mod_cast hge
      cases hm : mkListing r with
      | some l =>
        simp only [collectRows, hge, if_false, Bool.false_eq_true, hm]
        have := ih (i + 1)
        simp only [List.length_cons]
        omega
      | none =>
        simp only [collectRows, hge, if_false, Bool.false_eq_true, hm]
        have := ih (i + 1)
        omega

lemma applyQueryFilter_length_le (q : Option String) (ls : List PropertyListing) :
    (applyQueryFilter q ls).length ≤ ls.length := by
  cases q with
  | none => exact le_rfl
  | some qs =>
    simp only [applyQueryFilter]
    split
    · exact List.length_filter_le _ _
    · exact le_rfl

lemma effMaxNum_val_pos {p : SearchParams} {n : ℕ}
    (hp : p.maxResults = some (.val (n : ℚ))) (hn : 1 ≤ n) :
    effMaxNum p = .val (n : ℚ) := by
  have ht : (JSNum.val (n : ℚ)).truthy = true := by
    simp [JSNum.truthy]
    exact_mod_cast Nat.one_le_iff_ne_zero.mp hn
  unfold effMaxNum
  rw [hp]
  simp [ht]

/-! ## Claim C1 -/

/-- C1 counterexample: `maxResults = 0` is accepted by validation but the
returned sequence is NOT capped at 0 — on a one-row page the result has length
1, exceeding the supplied `maxResults`; the `maxResults || 10` fallback treats
0 as absent. -/
theorem C1_counterexample :
    ((searchChalupy pMax0 oOK [wRow]).2).map List.length = .ok 1 ∧ ¬(1 ≤ 0) := by
  constructor
  · decide
  · decide

/-- C1 (amended): for every parameter set accepted by validation, the returned
sequence length is at most the supplied `maxResults` whenever that is a natural
number ≥ 1; an absent `maxResults` — or the value 0, which the `|| 10` fallback
treats as absent — caps the result at the default 10; and `maxResults = 101`
fails with an `invalidParameter` error before any event (delay or fetch) is
emitted. -/
theorem C1_result_cap :
    (∀ (p : SearchParams) (o : Nat → AttemptOutcome) (pg : List RawItem)
        (l : List PropertyListing) (n : ℕ),
      (searchChalupy p o pg).2 = .ok l → p.maxResults = some (.val (n : ℚ)) →
      1 ≤ n → l.length ≤ n) ∧
    (∀ (p : SearchParams) (o : Nat → AttemptOutcome) (pg : List RawItem)
        (l : List PropertyListing),
      (searchChalupy p o pg).2 = .ok l →
      (p.maxResults = none ∨ p.maxResults = some (.val 0)) → l.length ≤ 10) ∧
    (∀ (p : SearchParams) (o : Nat → AttemptOutcome) (pg : List RawItem),
      p.maxResults = some (.val 101) →
      (searchChalupy p o pg).1 = [] ∧
        ∃ m, (searchChalupy p o pg).2 = .error (.invalidParameter m)) := by
  refine ⟨?_, ?_, ?_⟩
  · intro p o pg l n hok hmax hn
    obtain ⟨hv, hl⟩ := searchChalupy_ok_inv hok
    rw [hl, effMaxNum_val_pos hmax hn]
    have h1 := applyQueryFilter_length_le p.query (collectRows (.val (n : ℚ)) 0 pg)
    have h2 := collectRows_length_le n pg 0
    omega
  · intro p o pg l hok hdisj
    obtain ⟨hv, hl⟩ := searchChalupy_ok_inv hok
    have heff : effMaxNum p = .val ((10 : ℕ) : ℚ) := by
      rcases hdisj with hnone | hzero
      · unfold effMaxNum
        rw [hnone]
        norm_num
      · unfold effMaxNum
        rw [hzero]
        norm_num [JSNum.truthy]
    rw [hl, heff]
    have h1 := applyQueryFilter_length_le p.query (collectRows (.val ((10 : ℕ) : ℚ)) 0 pg)
    have h2 := collectRows_length_le 10 pg 0
    omega
  · intro p o pg hmax
    refine searchChalupy_invalid p o pg (fun hok => ?_)
    have hcm := ((vsp_ok_iff p).mp hok).2.2.2.2.2.2.2
    rw [hmax] at hcm
    exact absurd hcm (by decide)

/-- Witness for C1: the concrete parameter set with `maxResults = 101` yields
an `invalidParameter` error and an empty event trace. -/
theorem C1_result_cap_witness :
    (searchChalupy pMax101 oOK []).1 = [] ∧
    ∃ m, (searchChalupy pMax101 oOK []).2 = .error (.invalidParameter m) :=
  C1_result_cap.2.2 pMax101 oOK [] rfl

/-! ## Claim C9 -/

/-- C9: a zero value for `persons`, `priceMin`, `priceMax` or `maxResults` is
operationally identical to leaving the field out: zero passes the non-negative
validation, is omitted from the query string by the truthiness guards, and
`maxResults || 10` gives the same default cap for 0 as for absent — so
`searchChalupy` (trace and result alike) is unchanged by replacing such a field
with 0.  The equality holds definitionally: both sides evaluate the zero field
to the same validation outcome, query-string contribution, and result cap. -/
theorem C9_zero_equals_absent (p : SearchParams) (o : Nat → AttemptOutcome)
    (pg : List RawItem) :
    searchChalupy { p with persons := some (.val 0) } o pg
      = searchChalupy { p with persons := none } o pg ∧
    searchChalupy { p with priceMin := some (.val 0) } o pg
      = searchChalupy { p with priceMin := none } o pg ∧
    searchChalupy { p with priceMax := some (.val 0) } o pg
      = searchChalupy { p with priceMax := none } o pg ∧
    searchChalupy { p with maxResults := some (.val 0) } o pg
      = searchChalupy { p with maxResults := none } o pg :=
  ⟨rfl, rfl, rfl, rfl⟩

/-! ## Claim C10 -/

lemma validateFeatureList_mem_fail {fs : List String} {g : String}
    (hg : g ∈ fs) (hbad : validateSlug g "feature" ≠ .ok ()) :
    validateFeatureList fs ≠ .ok () := by
  induction fs with
  | nil => simp at hg
  | cons f rest ih =>
    intro hok
    rw [validateFeatureList] at hok
    obtain ⟨h1, h2⟩ := (bindUnit_ok_iff _ _).mp hok
    rcases List.mem_cons.mp hg with hgf | hgm
    · subst hgf
      exact hbad h1
    · exact ih hgm h2

/-- C10: only the first element of the features list affects the search URL:
every feature slug in the list is validated (one failing slug anywhere in the
list rejects the whole call with an `invalidParameter` error), but for a
parameter set that passes validation, `searchChalupy` behaves identically when
the features list is truncated to its first element. -/
theorem C10_first_feature_only :
    (∀ (p : SearchParams) (o : Nat → AttemptOutcome) (pg : List RawItem)
        (f : String) (rest : List String),
      p.features = some (f :: rest) → validateSearchParams p = .ok () →
      searchChalupy p o pg = searchChalupy { p with features := some [f] } o pg) ∧
    (∀ (p : SearchParams) (fs : List String) (g : String),
      p.features = some fs → g ∈ fs → validateSlug g "feature" ≠ .ok () →
      ∃ m, validateSearchParams p = .error (.invalidParameter m)) := by
  constructor
  · intro p o pg f rest hf hok
    have hparts := (vsp_ok_iff p).mp hok
    have hfeats : validateFeatureList (f :: rest) = .ok () := by
      have h := hparts.2.1
      rw [hf, checkFeatures] at h
      exact h
    rw [validateFeatureList] at hfeats
    obtain ⟨hslug, hrest⟩ := (bindUnit_ok_iff _ _).mp hfeats
    have hok2 : validateSearchParams { p with features := some [f] } = .ok () := by
      rw [vsp_ok_iff]
      refine ⟨hparts.1, ?_, hparts.2.2.1, hparts.2.2.2.1, hparts.2.2.2.2.1,
        hparts.2.2.2.2.2.1, hparts.2.2.2.2.2.2.1, hparts.2.2.2.2.2.2.2⟩
      show (validateSlug f "feature" >>= fun _ => validateFeatureList []) = .ok ()
      exact (bindUnit_ok_iff _ _).mpr ⟨hslug, rfl⟩
    have hu : buildSearchUrl p = buildSearchUrl { p with features := some [f] } := by
      unfold buildSearchUrl buildQueryParams buildSearchPath
      rw [hf]
    unfold searchChalupy
    rw [hok, hok2, hu]
    rfl
  · intro p fs g hf hg hbad
    have hne : validateSearchParams p ≠ .ok () := by
      intro hok
      have h := ((vsp_ok_iff p).mp hok).2.1
      rw [hf, checkFeatures] at h
      exact validateFeatureList_mem_fail hg hbad h
    cases hv : validateSearchParams p with
    | ok u => cases u; exact absurd hv hne
    | error e =>
      obtain ⟨m, hm⟩ := Err_invalidParameter_exists (vsp_error_inv hv)
      exact ⟨m, by rw [hm]⟩

/-- Witness for C10: the concrete two-feature search equals the one-feature
truncation. -/
theorem C10_first_feature_only_witness :
    searchChalupy pTwoFeatures oOK [] = searchChalupy pOneFeature oOK [] :=
  C10_first_feature_only.1 pTwoFeatures oOK [] "se-saunou" ["s-krbem"] rfl (by decide)

end Chalupy
